import Mathlib

/-!
# Verification of the codon-usage (CAI) core of DCB-Dynamic-Codon-Bias

Shallow embedding of `Bias.py` (class `CodonAdaptationIndex`): the 64-codon
table, the 21 synonymous-codon groups, codon counting over FASTA records, and
the RCSU / NRCSU index builders.  Python floats are modelled by exact
rationals (`ℚ`); Python exceptions are modelled by an explicit error type,
with the mutations performed before the raise kept in the returned state,
exactly as CPython leaves the object when an exception propagates.
-/

/-- The Python exception classes that `Bias.py` actually raises.
`_count_codons` raises `TypeError`, the two index builders raise
`ValueError` on a duplicate build, and `x / 0.0` raises `ZeroDivisionError`. -/
inductive PyError where
  | typeError (msg : String)
  | valueError (msg : String)
  | zeroDivisionError
  deriving DecidableEq, Repr

/-- The keys of `CodonsDict` in `Bias.py`, in source order.  `CodonsDict`
maps each of these 64 codons to the count 0; membership in the count dict
(`if codon in self.codon_count`) is membership in this key list. -/
def CodonsList : List String :=
  ["TTT", "TTC", "TTA", "TTG", "CTT",
   "CTC", "CTA", "CTG", "ATT", "ATC",
   "ATA", "ATG", "GTT", "GTC", "GTA",
   "GTG", "TAT", "TAC", "TAA", "TAG",
   "CAT", "CAC", "CAA", "CAG", "AAT",
   "AAC", "AAA", "AAG", "GAT", "GAC",
   "GAA", "GAG", "TCT", "TCC", "TCA",
   "TCG", "CCT", "CCC", "CCA", "CCG",
   "ACT", "ACC", "ACA", "ACG", "GCT",
   "GCC", "GCA", "GCG", "TGT", "TGC",
   "TGA", "TGG", "CGT", "CGC", "CGA",
   "CGG", "AGT", "AGC", "AGA", "AGG",
   "GGT", "GGC", "GGA", "GGG"]

/-- `SynonymousCodons` from `Bias.py`: 21 groups (20 amino acids + STOP),
in source order, each with its member codons in source order. -/
def SynonymousCodons : List (String × List String) :=
  [("CYS", ["TGT", "TGC"]),
   ("ASP", ["GAT", "GAC"]),
   ("SER", ["TCT", "TCG", "TCA", "TCC", "AGC", "AGT"]),
   ("GLN", ["CAA", "CAG"]),
   ("MET", ["ATG"]),
   ("ASN", ["AAC", "AAT"]),
   ("PRO", ["CCT", "CCG", "CCA", "CCC"]),
   ("LYS", ["AAG", "AAA"]),
   ("STOP", ["TAG", "TGA", "TAA"]),
   ("THR", ["ACC", "ACA", "ACG", "ACT"]),
   ("PHE", ["TTT", "TTC"]),
   ("ALA", ["GCA", "GCC", "GCG", "GCT"]),
   ("GLY", ["GGT", "GGG", "GGA", "GGC"]),
   ("ILE", ["ATC", "ATA", "ATT"]),
   ("LEU", ["TTA", "TTG", "CTC", "CTT", "CTG", "CTA"]),
   ("HIS", ["CAT", "CAC"]),
   ("ARG", ["CGA", "CGC", "CGG", "CGT", "AGG", "AGA"]),
   ("TRP", ["TGG"]),
   ("VAL", ["GTA", "GTC", "GTG", "GTT"]),
   ("GLU", ["GAG", "GAA"]),
   ("TYR", ["TAT", "TAC"])]

/-- Python's `str.islower()` restricted to the ASCII range the data uses:
true iff the string has at least one cased character and no upper-case
character.  Used by `_count_codons` to decide whether to call `.upper()`. -/
def pythonIslower (s : List Char) : Bool :=
  s.any (fun c => c.isUpper || c.isLower) && s.all (fun c => !c.isUpper)

/-- The non-overlapping 3-character windows produced by
`for i in range(0, len(dna_sequence), 3): codon = dna_sequence[i:i + 3]`:
full codons in order, plus the short trailing fragment (length 1 or 2)
when the length is not a multiple of 3. -/
def chunks3 : List Char → List (List Char)
  | [] => []
  | [a] => [[a]]
  | [a, b] => [[a, b]]
  | a :: b :: c :: rest => [a, b, c] :: chunks3 rest

/-- `self.codon_count[codon] += 1` on the count accumulator. -/
def updateCount (counts : String → Nat) (codon : String) : String → Nat :=
  fun k => if k = codon then counts codon + 1 else counts k

/-- The inner loop of `_count_codons` over one record's windows, starting
from the current accumulator.  On an invalid window it raises
`TypeError("illegal codon %s in gene: %s" % (codon, cur_record.id))`; the
increments already performed stay in the accumulator (in-place mutation). -/
def countChunks (recId : String) :
    (String → Nat) → List (List Char) → (String → Nat) × Option PyError
  | counts, [] => (counts, none)
  | counts, w :: ws =>
    let codon := String.mk w
    if codon ∈ CodonsList then
      countChunks recId (updateCount counts codon) ws
    else
      (counts, some (PyError.typeError
        ("illegal codon " ++ codon ++ " in gene: " ++ recId)))

/-- The case step of `_count_codons`:
`dna_sequence = str(seq).upper() if str(seq).islower() else str(seq)`.
Only an entirely lower-case sequence is upper-cased; anything else is
scanned exactly as stored. -/
def pyNormalize (sq : List Char) : List Char :=
  if pythonIslower sq then sq.map Char.toUpper else sq

/-- The record loop of `_count_codons`: uppercase the sequence when it is
entirely lower case (`str.islower()`), then scan its 3-character windows. -/
def countRecords :
    (String → Nat) → List (String × List Char) → (String → Nat) × Option PyError
  | counts, [] => (counts, none)
  | counts, (recId, sq) :: rest =>
    match countChunks recId counts (chunks3 (pyNormalize sq)) with
    | (counts2, none) => countRecords counts2 rest
    | (counts2, some e) => (counts2, some e)

/-- `_count_codons(fasta_file)`: reset the accumulator to `CodonsDict.copy()`
(all 64 codons at 0) and count every record of the file. -/
def count_codons (records : List (String × List Char)) :
    (String → Nat) × Option PyError :=
  countRecords (fun _ => 0) records

/-- Python dict lookup `d[k]` (as an `Option`, `none` when the key is absent). -/
def dictGet : List (String × ℚ) → String → Option ℚ
  | [], _ => none
  | p :: ps, k => if p.1 = k then some p.2 else dictGet ps k

/-- Python dict assignment `d[k] = v`: overwrite the first (unique) binding
of `k` in place, append otherwise (CPython dicts keep insertion order). -/
def dictSet : List (String × ℚ) → String → ℚ → List (String × ℚ)
  | [], k, v => [(k, v)]
  | p :: ps, k, v => if p.1 = k then (k, v) :: ps else p :: dictSet ps k v

/-- `for codon_index, codon in enumerate(codons): d[codon] = vals[codon_index]`. -/
def writePairs : List (String × ℚ) → List (String × ℚ) → List (String × ℚ)
  | d, [] => d
  | d, (k, v) :: ps => writePairs (dictSet d k v) ps

/-- `total = 0.0; for codon in codons: total += self.codon_count[codon]`. -/
def groupTotal (counts : String → Nat) (codons : List String) : ℚ :=
  codons.foldl (fun acc c => acc + (counts c : ℚ)) 0

/-- Python's `max` over a list (a group's `rcsu`/`nrcsu` list is never empty,
so the empty case is unreachable; `max([])` would raise). -/
def pyMax : List ℚ → ℚ
  | [] => 0
  | x :: xs => xs.foldl max x

/-- The per-group loop of `generate_rcsu_index`: for each synonymous group,
`denominator = float(total) / len(codons)` and each stored value is
`self.codon_count[codon] / denominator`.  When `denominator` is `0.0` the
division raises `ZeroDivisionError` at the first codon of the group, leaving
the groups already processed in the index.  `rcsu_max = max(rcsu)` is
computed by the source but never used: the stored weight is the raw
`rcsu[codon_index]`, not `rcsu[codon_index] / rcsu_max`.  Python's doubles
are modelled here by the exact rationals they denote; `rcsuLoopF` below
is the same loop with the binary64 rounding of each division explicit. -/
def rcsuLoop (counts : String → Nat) :
    List (String × ℚ) → List (String × List String) →
      List (String × ℚ) × Option PyError
  | idx, [] => (idx, none)
  | idx, (_aa, codons) :: rest =>
    let total : ℚ := groupTotal counts codons
    let denominator : ℚ := total / (codons.length : ℚ)
    if denominator = 0 then (idx, some PyError.zeroDivisionError)
    else
      let rcsu := codons.map (fun c => (counts c : ℚ) / denominator)
      let _rcsu_max := pyMax rcsu
      rcsuLoop counts (writePairs idx (codons.zip rcsu)) rest

/-- The per-group loop of `generate_nrcsu_index`: identical to `rcsuLoop`
except `denominator = float(total)`.  `nrcsu_max = max(nrcsu)` is likewise
computed and never used.  As with `rcsuLoop`, doubles are modelled by
exact rationals; see `nrcsuLoopF` for the rounding-explicit variant. -/
def nrcsuLoop (counts : String → Nat) :
    List (String × ℚ) → List (String × List String) →
      List (String × ℚ) × Option PyError
  | idx, [] => (idx, none)
  | idx, (_aa, codons) :: rest =>
    let total : ℚ := groupTotal counts codons
    let denominator : ℚ := total
    if denominator = 0 then (idx, some PyError.zeroDivisionError)
    else
      let nrcsu := codons.map (fun c => (counts c : ℚ) / denominator)
      let _nrcsu_max := pyMax nrcsu
      nrcsuLoop counts (writePairs idx (codons.zip nrcsu)) rest

/-- The mutable state of a `CodonAdaptationIndex` instance: the record
source (`self.handle`) and the three mappings set up by `__init__`. -/
structure CAIState where
  handle : List (String × List Char)
  codon_count : String → Nat
  rcsu_index : List (String × ℚ)
  nrcsu_index : List (String × ℚ)

/-- `CodonAdaptationIndex(file)`: all three mappings start empty. -/
def mkState (file : List (String × List Char)) : CAIState :=
  { handle := file
    codon_count := fun _ => 0
    rcsu_index := []
    nrcsu_index := [] }

/-- `generate_rcsu_index(self)`: raise
`ValueError("an RSCU index has already been set")` when `self.rcsu_index`
is non-empty; otherwise recount the codons of `self.handle` and run the
RCSU group loop.  An error anywhere leaves the mutations made so far. -/
def generate_rcsu_index (s : CAIState) : CAIState × Option PyError :=
  if s.rcsu_index ≠ [] then
    (s, some (PyError.valueError "an RSCU index has already been set"))
  else
    let counts := (count_codons s.handle).1
    match (count_codons s.handle).2 with
    | some e => ({ s with codon_count := counts }, some e)
    | none =>
      let res := rcsuLoop counts s.rcsu_index SynonymousCodons
      ({ s with codon_count := counts, rcsu_index := res.1 }, res.2)

/-- `generate_nrcsu_index(self)`: raise
`ValueError("an NRSCU index has already been set")` when
`self.nrcsu_index` is non-empty; otherwise recount and run the NRCSU loop. -/
def generate_nrcsu_index (s : CAIState) : CAIState × Option PyError :=
  if s.nrcsu_index ≠ [] then
    (s, some (PyError.valueError "an NRSCU index has already been set"))
  else
    let counts := (count_codons s.handle).1
    match (count_codons s.handle).2 with
    | some e => ({ s with codon_count := counts }, some e)
    | none =>
      let res := nrcsuLoop counts s.nrcsu_index SynonymousCodons
      ({ s with codon_count := counts, nrcsu_index := res.1 }, res.2)

/-- A single FASTA record whose sequence is every one of the 64 codons once,
in `CodonsDict` order, followed by one extra TTT: every codon is counted
once and TTT twice, so every synonymous group has positive total usage. -/
def allCodonsRecord : List (String × List Char) :=
  [("seq1", (String.join (CodonsList ++ ["TTT"])).toList)]

/-! ## An explicit IEEE-754 binary64 model

The loops above model Python's `float` values by the exact rationals they
denote, which is faithful for every claim that concerns raised errors,
zero guards and un-normalized stored values, but hides the rounding of
the two divisions.  The definitions below repeat the same source lines
with the binary64 rounding made explicit, for the one claim whose truth
depends on it. -/

/-- Floor of the base-2 logarithm of a natural number, driven by explicit
fuel (the fuel only bounds the recursion depth; 400 exceeds the bit length
of every number this development evaluates). -/
def natLog2F : Nat → Nat → Nat
  | 0, _ => 0
  | fuel + 1, n => if 2 ≤ n then natLog2F fuel (n / 2) + 1 else 0

/-- `natLog2 n = ⌊log₂ n⌋` for `1 ≤ n < 2 ^ 400`. -/
def natLog2 (n : Nat) : Nat := natLog2F 400 n

/-- Round `n / d` to the nearest integer, ties to even — the rounding of
IEEE-754 round-to-nearest applied to an exact non-negative quotient. -/
def rneNatPair (n d : Nat) : Nat :=
  let f := n / d
  let r2 := 2 * (n % d)
  if r2 < d then f
  else if d < r2 then f + 1
  else if f % 2 = 0 then f else f + 1

/-- Round a positive rational to the nearest IEEE-754 binary64 value
(normal range; the program's values all lie well inside it): find the
binade exponent `e` with `2 ^ e ≤ q < 2 ^ (e+1)`, round the 53-bit
significand to nearest/ties-even, and rebuild the dyadic value. -/
def flPos (q : ℚ) : ℚ :=
  let n := q.num.toNat
  let d := q.den
  let e0 : ℤ := (natLog2 n : ℤ) - (natLog2 d : ℤ)
  let below : Bool :=
    if 0 ≤ e0 then decide (n < d * 2 ^ e0.toNat)
    else decide (n * 2 ^ (-e0).toNat < d)
  let e : ℤ := if below then e0 - 1 else e0
  let s : ℤ := 52 - e
  let m : Nat :=
    if 0 ≤ s then rneNatPair (n * 2 ^ s.toNat) d
    else rneNatPair n (d * 2 ^ (-s).toNat)
  if 0 ≤ e - 52 then ((m * 2 ^ (e - 52).toNat : Nat) : ℚ)
  else (m : ℚ) / ((2 ^ (52 - e).toNat : Nat) : ℚ)

/-- IEEE-754 binary64 rounding of an exact rational (normal range). -/
def fl (q : ℚ) : ℚ :=
  if 0 < q then flPos q else if q < 0 then -flPos (-q) else 0

/-- `groupTotal` with each `total += count` addition rounded as a binary64
addition.  The totals are small integers, so every addition is exact; the
rounding is kept for uniformity. -/
def groupTotalF (counts : String → Nat) (codons : List String) : ℚ :=
  codons.foldl (fun acc c => fl (acc + (counts c : ℚ))) 0

/-- `rcsuLoop` with the two divisions rounded as binary64 divisions:
`denominator = float(total) / len(codons)` and
`self.codon_count[codon] / denominator` each produce the correctly
rounded double of the exact quotient. -/
def rcsuLoopF (counts : String → Nat) :
    List (String × ℚ) → List (String × List String) →
      List (String × ℚ) × Option PyError
  | idx, [] => (idx, none)
  | idx, (_aa, codons) :: rest =>
    let total : ℚ := groupTotalF counts codons
    let denominator : ℚ := fl (total / (codons.length : ℚ))
    if denominator = 0 then (idx, some PyError.zeroDivisionError)
    else
      let rcsu := codons.map (fun c => fl ((counts c : ℚ) / denominator))
      let _rcsu_max := pyMax rcsu
      rcsuLoopF counts (writePairs idx (codons.zip rcsu)) rest

/-- `nrcsuLoop` with the division rounded as a binary64 division. -/
def nrcsuLoopF (counts : String → Nat) :
    List (String × ℚ) → List (String × List String) →
      List (String × ℚ) × Option PyError
  | idx, [] => (idx, none)
  | idx, (_aa, codons) :: rest =>
    let total : ℚ := groupTotalF counts codons
    let denominator : ℚ := total
    if denominator = 0 then (idx, some PyError.zeroDivisionError)
    else
      let nrcsu := codons.map (fun c => fl ((counts c : ℚ) / denominator))
      let _nrcsu_max := pyMax nrcsu
      nrcsuLoopF counts (writePairs idx (codons.zip nrcsu)) rest

/-- `generate_rcsu_index` over the binary64 model of the group loop. -/
def generate_rcsu_indexF (s : CAIState) : CAIState × Option PyError :=
  if s.rcsu_index ≠ [] then
    (s, some (PyError.valueError "an RSCU index has already been set"))
  else
    let counts := (count_codons s.handle).1
    match (count_codons s.handle).2 with
    | some e => ({ s with codon_count := counts }, some e)
    | none =>
      let res := rcsuLoopF counts s.rcsu_index SynonymousCodons
      ({ s with codon_count := counts, rcsu_index := res.1 }, res.2)

/-- `generate_nrcsu_index` over the binary64 model of the group loop. -/
def generate_nrcsu_indexF (s : CAIState) : CAIState × Option PyError :=
  if s.nrcsu_index ≠ [] then
    (s, some (PyError.valueError "an NRSCU index has already been set"))
  else
    let counts := (count_codons s.handle).1
    match (count_codons s.handle).2 with
    | some e => ({ s with codon_count := counts }, some e)
    | none =>
      let res := nrcsuLoopF counts s.nrcsu_index SynonymousCodons
      ({ s with codon_count := counts, nrcsu_index := res.1 }, res.2)

/-- A single FASTA record using every codon once plus three extra ATA and
four extra ATT, so every group total is positive and the ILE group
(ATC, ATA, ATT) has counts 1, 4, 5 with total 10. -/
def ileSkewRecord : List (String × List Char) :=
  [("seq1", (String.join (CodonsList ++
    ["ATA", "ATA", "ATA", "ATT", "ATT", "ATT", "ATT"])).toList)]

/-! ## Facts about the static codon table, checked by evaluation -/

/-- Every codon of the count table is a 3-character string. -/
theorem codons_length_three : ∀ s ∈ CodonsList, s.toList.length = 3 := by decide

/-- Every codon of the count table is written in upper case. -/
theorem codons_upper : ∀ s ∈ CodonsList, s.toList.all Char.isUpper = true := by
  decide

/-- No codon appears in two synonymous groups and no group repeats a codon. -/
theorem synonymous_nodup : ((SynonymousCodons.map Prod.snd).flatten).Nodup := by
  decide

/-- Every synonymous group is non-empty. -/
theorem synonymous_ne_nil : ∀ g ∈ SynonymousCodons, g.2.length ≠ 0 := by decide

/-! ## Dictionary lemmas -/

theorem dictGet_dictSet_self (d : List (String × ℚ)) (k : String) (v : ℚ) :
    dictGet (dictSet d k v) k = some v := by
  induction d with
  | nil => simp [dictGet, dictSet]
  | cons p ps ih =>
    by_cases h : p.1 = k <;> simp [dictGet, dictSet, h, ih]

theorem dictGet_dictSet_ne (d : List (String × ℚ)) (k k' : String) (v : ℚ)
    (h : k' ≠ k) : dictGet (dictSet d k v) k' = dictGet d k' := by
  have hk : ¬(k = k') := fun hh => h hh.symm
  induction d with
  | nil =>
    simp only [dictSet, dictGet]
    rw [if_neg hk]
  | cons p ps ih =>
    simp only [dictSet]
    by_cases hp : p.1 = k
    · rw [if_pos hp]
      simp only [dictGet]
      rw [if_neg hk, if_neg (by rw [hp]; exact hk)]
    · rw [if_neg hp]
      simp only [dictGet, ih]

theorem dictGet_writePairs_not_mem (d : List (String × ℚ))
    (ps : List (String × ℚ)) (k : String) (h : ∀ p ∈ ps, p.1 ≠ k) :
    dictGet (writePairs d ps) k = dictGet d k := by
  induction ps generalizing d with
  | nil => simp [writePairs]
  | cons p ps ih =>
    simp only [writePairs]
    rw [ih _ fun q hq => h q (List.mem_cons_of_mem _ hq),
      dictGet_dictSet_ne _ _ _ _
        fun hh => h p (List.mem_cons_self _ _) hh.symm]

theorem dictGet_writePairs_zip_map (d : List (String × ℚ))
    (codons : List String) (f : String → ℚ) (c : String)
    (hnd : codons.Nodup) (hc : c ∈ codons) :
    dictGet (writePairs d (codons.zip (codons.map f))) c = some (f c) := by
  induction codons generalizing d with
  | nil => cases hc
  | cons c0 cs ih =>
    simp only [List.map_cons, List.zip_cons_cons, writePairs]
    rcases List.mem_cons.mp hc with rfl | hmem
    · have hnot : c ∉ cs := (List.nodup_cons.mp hnd).1
      rw [dictGet_writePairs_not_mem _ _ _ (by
        intro p hp heq
        exact hnot (heq ▸ (List.of_mem_zip hp).1))]
      exact dictGet_dictSet_self _ _ _
    · exact ih _ (List.nodup_cons.mp hnd).2 hmem

/-! ## Counting lemmas -/

/-- Scanning a list of windows that are all valid codons never raises. -/
theorem countChunks_valid_none (rid : String) (counts : String → Nat)
    (ws : List (List Char)) (h : ∀ w ∈ ws, String.mk w ∈ CodonsList) :
    (countChunks rid counts ws).2 = none := by
  induction ws generalizing counts with
  | nil => rfl
  | cons w ws ih =>
    have hw := h w (List.mem_cons_self _ _)
    simp only [countChunks, hw, if_pos]
    exact ih _ fun x hx => h x (List.mem_cons_of_mem _ hx)

/-- Scanning `ws ++ ws'` first scans `ws`; when that raises nothing the
accumulator it produced is carried into the scan of `ws'`. -/
theorem countChunks_append (rid : String) (counts : String → Nat)
    (ws ws' : List (List Char)) (h : (countChunks rid counts ws).2 = none) :
    countChunks rid counts (ws ++ ws') =
      countChunks rid (countChunks rid counts ws).1 ws' := by
  induction ws generalizing counts with
  | nil => rfl
  | cons w ws ih =>
    by_cases hw : String.mk w ∈ CodonsList
    · simp only [List.cons_append, countChunks, hw, if_pos] at h ⊢
      exact ih _ h
    · simp only [countChunks, hw, if_neg, not_false_iff] at h
      cases h

/-- When some window of the scan is invalid, the scan raises a `TypeError`
naming one of the invalid windows and the record identifier. -/
theorem countChunks_invalid (rid : String) (counts : String → Nat)
    (ws : List (List Char)) (h : ∃ w ∈ ws, String.mk w ∉ CodonsList) :
    ∃ w ∈ ws, String.mk w ∉ CodonsList ∧
      (countChunks rid counts ws).2 = some (PyError.typeError
        ("illegal codon " ++ String.mk w ++ " in gene: " ++ rid)) := by
  induction ws generalizing counts with
  | nil => obtain ⟨w, hw, _⟩ := h; cases hw
  | cons w0 ws ih =>
    by_cases hw0 : String.mk w0 ∈ CodonsList
    · obtain ⟨w, hw, hnv⟩ := h
      rcases List.mem_cons.mp hw with rfl | hmem
      · exact absurd hw0 hnv
      · obtain ⟨w', hw', hnv', he⟩ := ih (updateCount counts (String.mk w0))
          ⟨w, hmem, hnv⟩
        refine ⟨w', List.mem_cons_of_mem _ hw', hnv', ?_⟩
        simpa only [countChunks, hw0, if_pos] using he
    · refine ⟨w0, List.mem_cons_self _ _, hw0, ?_⟩
      simp only [countChunks, hw0, if_neg, not_false_iff]

/-- One step of the record loop, written out. -/
theorem countRecords_cons (counts : String → Nat) (rid : String)
    (sq : List Char) (rest : List (String × List Char)) :
    countRecords counts ((rid, sq) :: rest) =
      match countChunks rid counts (chunks3 (pyNormalize sq)) with
      | (counts2, none) => countRecords counts2 rest
      | (counts2, some e) => (counts2, some e) := rfl

/-! ## Lemmas about the RCSU group loop -/

theorem rcsuLoop_snd_eq_none_iff (counts : String → Nat)
    (idx : List (String × ℚ)) (gs : List (String × List String)) :
    (rcsuLoop counts idx gs).2 = none ↔
      ∀ g ∈ gs, groupTotal counts g.2 / (g.2.length : ℚ) ≠ 0 := by
  induction gs generalizing idx with
  | nil => simp [rcsuLoop]
  | cons g rest ih =>
    obtain ⟨aa, codons⟩ := g
    by_cases h : groupTotal counts codons / (codons.length : ℚ) = 0
    · simp only [rcsuLoop, h, if_pos]
      simp only [List.forall_mem_cons]
      exact iff_of_false (by simp) (fun hall => hall.1 h)
    · simp only [rcsuLoop, h, if_neg, not_false_iff, List.forall_mem_cons, ih]
      exact (and_iff_right h).symm

theorem rcsuLoop_snd_none_or_zero (counts : String → Nat)
    (idx : List (String × ℚ)) (gs : List (String × List String)) :
    (rcsuLoop counts idx gs).2 = none ∨
      (rcsuLoop counts idx gs).2 = some PyError.zeroDivisionError := by
  induction gs generalizing idx with
  | nil => left; rfl
  | cons g rest ih =>
    obtain ⟨aa, codons⟩ := g
    by_cases h : groupTotal counts codons / (codons.length : ℚ) = 0
    · right; simp [rcsuLoop, h]
    · simp only [rcsuLoop, h, if_neg, not_false_iff]
      exact ih _

theorem dictGet_rcsuLoop_not_mem (counts : String → Nat)
    (idx : List (String × ℚ)) (gs : List (String × List String)) (k : String)
    (h : ∀ g ∈ gs, k ∉ g.2) :
    dictGet (rcsuLoop counts idx gs).1 k = dictGet idx k := by
  induction gs generalizing idx with
  | nil => rfl
  | cons g rest ih =>
    obtain ⟨aa, codons⟩ := g
    by_cases hz : groupTotal counts codons / (codons.length : ℚ) = 0
    · simp [rcsuLoop, hz]
    · simp only [rcsuLoop, hz, if_neg, not_false_iff]
      rw [ih _ fun g hg => h g (List.mem_cons_of_mem _ hg)]
      exact dictGet_writePairs_not_mem _ _ _ fun p hp heq =>
        h (aa, codons) (List.mem_cons_self _ _)
          (heq ▸ (List.of_mem_zip hp).1)

theorem dictGet_rcsuLoop_mem (counts : String → Nat)
    (idx : List (String × ℚ)) (gs : List (String × List String))
    (hnd : ((gs.map Prod.snd).flatten).Nodup)
    (hok : (rcsuLoop counts idx gs).2 = none)
    (g : String × List String) (hg : g ∈ gs) (c : String) (hc : c ∈ g.2) :
    dictGet (rcsuLoop counts idx gs).1 c =
      some ((counts c : ℚ) /
        (groupTotal counts g.2 / (g.2.length : ℚ))) := by
  induction gs generalizing idx with
  | nil => cases hg
  | cons g0 rest ih =>
    obtain ⟨aa, codons⟩ := g0
    have hnd' :
        codons.Nodup ∧ ((rest.map Prod.snd).flatten).Nodup ∧
          ∀ x ∈ codons, x ∉ (rest.map Prod.snd).flatten := by
      have := hnd
      simp only [List.map_cons, List.flatten_cons, List.nodup_append] at this
      exact ⟨this.1, this.2.1, fun x hx => this.2.2 hx⟩
    by_cases hz : groupTotal counts codons / (codons.length : ℚ) = 0
    · simp [rcsuLoop, hz] at hok
    · simp only [rcsuLoop, hz, if_neg, not_false_iff] at hok ⊢
      rcases List.mem_cons.mp hg with rfl | hmem
      · rw [dictGet_rcsuLoop_not_mem _ _ _ _ (by
          intro g' hg' hcg'
          exact hnd'.2.2 c hc (by
            simp only [List.mem_flatten, List.mem_map]
            exact ⟨g'.2, ⟨g', hg', rfl⟩, hcg'⟩))]
        exact dictGet_writePairs_zip_map _ _ _ _ hnd'.1 hc
      · exact ih _ hnd'.2.1 hok hmem

/-! ## Lemmas about the NRCSU group loop -/

theorem nrcsuLoop_snd_eq_none_iff (counts : String → Nat)
    (idx : List (String × ℚ)) (gs : List (String × List String)) :
    (nrcsuLoop counts idx gs).2 = none ↔
      ∀ g ∈ gs, groupTotal counts g.2 ≠ 0 := by
  induction gs generalizing idx with
  | nil => simp [nrcsuLoop]
  | cons g rest ih =>
    obtain ⟨aa, codons⟩ := g
    by_cases h : groupTotal counts codons = 0
    · simp only [nrcsuLoop, h, if_pos]
      simp only [List.forall_mem_cons]
      exact iff_of_false (by simp) (fun hall => hall.1 h)
    · simp only [nrcsuLoop, h, if_neg, not_false_iff, List.forall_mem_cons, ih]
      exact (and_iff_right h).symm

theorem nrcsuLoop_snd_none_or_zero (counts : String → Nat)
    (idx : List (String × ℚ)) (gs : List (String × List String)) :
    (nrcsuLoop counts idx gs).2 = none ∨
      (nrcsuLoop counts idx gs).2 = some PyError.zeroDivisionError := by
  induction gs generalizing idx with
  | nil => left; rfl
  | cons g rest ih =>
    obtain ⟨aa, codons⟩ := g
    by_cases h : groupTotal counts codons = 0
    · right; simp [nrcsuLoop, h]
    · simp only [nrcsuLoop, h, if_neg, not_false_iff]
      exact ih _

theorem dictGet_nrcsuLoop_not_mem (counts : String → Nat)
    (idx : List (String × ℚ)) (gs : List (String × List String)) (k : String)
    (h : ∀ g ∈ gs, k ∉ g.2) :
    dictGet (nrcsuLoop counts idx gs).1 k = dictGet idx k := by
  induction gs generalizing idx with
  | nil => rfl
  | cons g rest ih =>
    obtain ⟨aa, codons⟩ := g
    by_cases hz : groupTotal counts codons = 0
    · simp [nrcsuLoop, hz]
    · simp only [nrcsuLoop, hz, if_neg, not_false_iff]
      rw [ih _ fun g hg => h g (List.mem_cons_of_mem _ hg)]
      exact dictGet_writePairs_not_mem _ _ _ fun p hp heq =>
        h (aa, codons) (List.mem_cons_self _ _)
          (heq ▸ (List.of_mem_zip hp).1)

theorem dictGet_nrcsuLoop_mem (counts : String → Nat)
    (idx : List (String × ℚ)) (gs : List (String × List String))
    (hnd : ((gs.map Prod.snd).flatten).Nodup)
    (hok : (nrcsuLoop counts idx gs).2 = none)
    (g : String × List String) (hg : g ∈ gs) (c : String) (hc : c ∈ g.2) :
    dictGet (nrcsuLoop counts idx gs).1 c =
      some ((counts c : ℚ) / groupTotal counts g.2) := by
  induction gs generalizing idx with
  | nil => cases hg
  | cons g0 rest ih =>
    obtain ⟨aa, codons⟩ := g0
    have hnd' :
        codons.Nodup ∧ ((rest.map Prod.snd).flatten).Nodup ∧
          ∀ x ∈ codons, x ∉ (rest.map Prod.snd).flatten := by
      have := hnd
      simp only [List.map_cons, List.flatten_cons, List.nodup_append] at this
      exact ⟨this.1, this.2.1, fun x hx => this.2.2 hx⟩
    by_cases hz : groupTotal counts codons = 0
    · simp [nrcsuLoop, hz] at hok
    · simp only [nrcsuLoop, hz, if_neg, not_false_iff] at hok ⊢
      rcases List.mem_cons.mp hg with rfl | hmem
      · rw [dictGet_nrcsuLoop_not_mem _ _ _ _ (by
          intro g' hg' hcg'
          exact hnd'.2.2 c hc (by
            simp only [List.mem_flatten, List.mem_map]
            exact ⟨g'.2, ⟨g', hg', rfl⟩, hcg'⟩))]
        exact dictGet_writePairs_zip_map _ _ _ _ hnd'.1 hc
      · exact ih _ hnd'.2.1 hok hmem

/-! ## Lemmas about the two index builders -/

theorem generate_rcsu_guard (s : CAIState) (h : s.rcsu_index ≠ []) :
    generate_rcsu_index s =
      (s, some (PyError.valueError "an RSCU index has already been set")) := by
  simp [generate_rcsu_index, h]

theorem generate_nrcsu_guard (s : CAIState) (h : s.nrcsu_index ≠ []) :
    generate_nrcsu_index s =
      (s, some (PyError.valueError "an NRSCU index has already been set")) := by
  simp [generate_nrcsu_index, h]

theorem generate_rcsu_of_count_ok (s : CAIState) (h1 : s.rcsu_index = [])
    (h2 : (count_codons s.handle).2 = none) :
    generate_rcsu_index s =
      ({ s with codon_count := (count_codons s.handle).1,
                rcsu_index :=
                  (rcsuLoop (count_codons s.handle).1 [] SynonymousCodons).1 },
       (rcsuLoop (count_codons s.handle).1 [] SynonymousCodons).2) := by
  simp [generate_rcsu_index, h1, h2]

theorem generate_nrcsu_of_count_ok (s : CAIState) (h1 : s.nrcsu_index = [])
    (h2 : (count_codons s.handle).2 = none) :
    generate_nrcsu_index s =
      ({ s with codon_count := (count_codons s.handle).1,
                nrcsu_index :=
                  (nrcsuLoop (count_codons s.handle).1 [] SynonymousCodons).1 },
       (nrcsuLoop (count_codons s.handle).1 [] SynonymousCodons).2) := by
  simp [generate_nrcsu_index, h1, h2]

theorem generate_rcsu_of_count_err (s : CAIState) (h1 : s.rcsu_index = [])
    (e : PyError) (h2 : (count_codons s.handle).2 = some e) :
    generate_rcsu_index s =
      ({ s with codon_count := (count_codons s.handle).1 }, some e) := by
  simp [generate_rcsu_index, h1, h2]

theorem generate_nrcsu_of_count_err (s : CAIState) (h1 : s.nrcsu_index = [])
    (e : PyError) (h2 : (count_codons s.handle).2 = some e) :
    generate_nrcsu_index s =
      ({ s with codon_count := (count_codons s.handle).1 }, some e) := by
  simp [generate_nrcsu_index, h1, h2]

/-- `generate_rcsu_index` writes only `codon_count` and `rcsu_index`. -/
theorem generate_rcsu_frame (s : CAIState) :
    (generate_rcsu_index s).1.handle = s.handle ∧
      (generate_rcsu_index s).1.nrcsu_index = s.nrcsu_index := by
  by_cases h1 : s.rcsu_index = []
  · rcases h2 : (count_codons s.handle).2 with _ | e
    · rw [generate_rcsu_of_count_ok s h1 h2]
      exact ⟨rfl, rfl⟩
    · rw [generate_rcsu_of_count_err s h1 e h2]
      exact ⟨rfl, rfl⟩
  · rw [generate_rcsu_guard s h1]
    exact ⟨rfl, rfl⟩

/-- `generate_nrcsu_index` writes only `codon_count` and `nrcsu_index`. -/
theorem generate_nrcsu_frame (s : CAIState) :
    (generate_nrcsu_index s).1.handle = s.handle ∧
      (generate_nrcsu_index s).1.rcsu_index = s.rcsu_index := by
  by_cases h1 : s.nrcsu_index = []
  · rcases h2 : (count_codons s.handle).2 with _ | e
    · rw [generate_nrcsu_of_count_ok s h1 h2]
      exact ⟨rfl, rfl⟩
    · rw [generate_nrcsu_of_count_err s h1 e h2]
      exact ⟨rfl, rfl⟩
  · rw [generate_nrcsu_guard s h1]
    exact ⟨rfl, rfl⟩

theorem generate_rcsu_snd_none_iff (s : CAIState) :
    (generate_rcsu_index s).2 = none ↔
      s.rcsu_index = [] ∧ (count_codons s.handle).2 = none ∧
        ∀ g ∈ SynonymousCodons,
          groupTotal (count_codons s.handle).1 g.2 / (g.2.length : ℚ) ≠ 0 := by
  by_cases h1 : s.rcsu_index = []
  · rcases h2 : (count_codons s.handle).2 with _ | e
    · rw [generate_rcsu_of_count_ok s h1 h2]
      simp [h1, rcsuLoop_snd_eq_none_iff]
    · rw [generate_rcsu_of_count_err s h1 e h2]
      simp [h2]
  · rw [generate_rcsu_guard s h1]
    simp [h1]

theorem generate_nrcsu_snd_none_iff (s : CAIState) :
    (generate_nrcsu_index s).2 = none ↔
      s.nrcsu_index = [] ∧ (count_codons s.handle).2 = none ∧
        ∀ g ∈ SynonymousCodons,
          groupTotal (count_codons s.handle).1 g.2 ≠ 0 := by
  by_cases h1 : s.nrcsu_index = []
  · rcases h2 : (count_codons s.handle).2 with _ | e
    · rw [generate_nrcsu_of_count_ok s h1 h2]
      simp [h1, nrcsuLoop_snd_eq_none_iff]
    · rw [generate_nrcsu_of_count_err s h1 e h2]
      simp [h2]
  · rw [generate_nrcsu_guard s h1]
    simp [h1]

/-- After a successful RCSU build, the stored weight of a codon `c` of a
synonymous group is the raw `count(c) / (total / n)` of its group. -/
theorem generate_rcsu_lookup (s : CAIState)
    (hok : (generate_rcsu_index s).2 = none)
    (g : String × List String) (hg : g ∈ SynonymousCodons)
    (c : String) (hc : c ∈ g.2) :
    dictGet (generate_rcsu_index s).1.rcsu_index c =
      some (((count_codons s.handle).1 c : ℚ) /
        (groupTotal (count_codons s.handle).1 g.2 / (g.2.length : ℚ))) := by
  obtain ⟨h1, h2, h3⟩ := (generate_rcsu_snd_none_iff s).mp hok
  have hloop := dictGet_rcsuLoop_mem (count_codons s.handle).1 []
    SynonymousCodons synonymous_nodup
    ((rcsuLoop_snd_eq_none_iff _ _ _).mpr h3) g hg c hc
  rw [generate_rcsu_of_count_ok s h1 h2]
  exact hloop

/-- After a successful NRCSU build, the stored weight of a codon `c` of a
synonymous group is the raw `count(c) / total` of its group. -/
theorem generate_nrcsu_lookup (s : CAIState)
    (hok : (generate_nrcsu_index s).2 = none)
    (g : String × List String) (hg : g ∈ SynonymousCodons)
    (c : String) (hc : c ∈ g.2) :
    dictGet (generate_nrcsu_index s).1.nrcsu_index c =
      some (((count_codons s.handle).1 c : ℚ) /
        groupTotal (count_codons s.handle).1 g.2) := by
  obtain ⟨h1, h2, h3⟩ := (generate_nrcsu_snd_none_iff s).mp hok
  have hloop := dictGet_nrcsuLoop_mem (count_codons s.handle).1 []
    SynonymousCodons synonymous_nodup
    ((nrcsuLoop_snd_eq_none_iff _ _ _).mpr h3) g hg c hc
  rw [generate_nrcsu_of_count_ok s h1 h2]
  exact hloop

/-- A successful RCSU build leaves a non-empty `rcsu_index`. -/
theorem generate_rcsu_ne_nil (s : CAIState)
    (hok : (generate_rcsu_index s).2 = none) :
    (generate_rcsu_index s).1.rcsu_index ≠ [] := by
  intro hnil
  have := generate_rcsu_lookup s hok ("CYS", ["TGT", "TGC"]) (by decide)
    "TGT" (by decide)
  rw [hnil] at this
  simp [dictGet] at this

/-- A successful NRCSU build leaves a non-empty `nrcsu_index`. -/
theorem generate_nrcsu_ne_nil (s : CAIState)
    (hok : (generate_nrcsu_index s).2 = none) :
    (generate_nrcsu_index s).1.nrcsu_index ≠ [] := by
  intro hnil
  have := generate_nrcsu_lookup s hok ("CYS", ["TGT", "TGC"]) (by decide)
    "TGT" (by decide)
  rw [hnil] at this
  simp [dictGet] at this

/-! ## Claim C1 -/

set_option maxRecDepth 1000000 in
/-- C1: the claim says the stored RCSU weight of each codon is
`rcsu(c) / max rcsu` so that the group maximum is exactly 1.  On an input
using every codon once and TTT twice (all groups have positive totals and
the build succeeds), the code stores the raw RCSU values for the PHE group
instead: TTT ↦ 4/3 and TTC ↦ 2/3, whose maximum is 4/3, not 1.  The source
computes `rcsu_max = max(rcsu)` and then never uses it, contradicting its
own comment `now generate the index W=RCSUi/RCSUmax`. -/
theorem C1_rcsu_weights_left_unnormalized :
    (generate_rcsu_index (mkState allCodonsRecord)).2 = none ∧
    dictGet (generate_rcsu_index (mkState allCodonsRecord)).1.rcsu_index
      "TTT" = some (4 / 3) ∧
    dictGet (generate_rcsu_index (mkState allCodonsRecord)).1.rcsu_index
      "TTC" = some (2 / 3) ∧
    ((4 : ℚ) / 3 ≠ 1) :=
  of_decide_eq_true (by with_unfolding_all rfl)

/-! ## Claim C3 -/

set_option maxRecDepth 1000000 in
/-- C3: the claim says the stored NRCSU weight is `(count/total)` divided
by the group maximum, and that on the single record `ATGATGTTTTTC` both
TTT and TTC are stored as 1.0.  The code instead (a) raises
`ZeroDivisionError` on that very input (the first group, CYS, has zero
total), storing nothing for TTT, and (b) even on an input where every
group is used (every codon once, TTT twice) stores the raw `count/total`
value 2/3 for TTT — `nrcsu_max` is computed and never used. -/
theorem C3_nrcsu_weights_not_normalized :
    (generate_nrcsu_index (mkState [("seq1", "ATGATGTTTTTC".toList)])).2 =
      some PyError.zeroDivisionError ∧
    dictGet (generate_nrcsu_index
      (mkState [("seq1", "ATGATGTTTTTC".toList)])).1.nrcsu_index "TTT" =
      none ∧
    (generate_nrcsu_index (mkState allCodonsRecord)).2 = none ∧
    dictGet (generate_nrcsu_index
      (mkState allCodonsRecord)).1.nrcsu_index "TTT" = some (2 / 3) ∧
    ((2 : ℚ) / 3 ≠ 1) :=
  of_decide_eq_true (by with_unfolding_all rfl)

/-! ## Claim C2 -/

set_option maxRecDepth 1000000 in
/-- C2 counterexample: on a record using only ATG, the CYS group has zero
total; the claim says both builders assign weight 0 to its codons and
complete without a division-by-zero failure, but both builders raise
`ZeroDivisionError` and store no weight at all for TGT. -/
theorem C2_zero_total_counterexample :
    (generate_rcsu_index (mkState [("seq1", "ATGATG".toList)])).2 =
      some PyError.zeroDivisionError ∧
    dictGet (generate_rcsu_index
      (mkState [("seq1", "ATGATG".toList)])).1.rcsu_index "TGT" = none ∧
    (generate_nrcsu_index (mkState [("seq1", "ATGATG".toList)])).2 =
      some PyError.zeroDivisionError ∧
    dictGet (generate_nrcsu_index
      (mkState [("seq1", "ATGATG".toList)])).1.nrcsu_index "TGT" = none :=
  of_decide_eq_true (by with_unfolding_all rfl)

/-- C2 amended: on a fresh instance whose counting succeeds, if any
synonymous group has zero total usage then each builder raises
`ZeroDivisionError` (the division by zero propagates to the caller;
no zero weights are substituted). -/
theorem C2_zero_total_group_raises (s : CAIState)
    (h1 : s.rcsu_index = []) (h1' : s.nrcsu_index = [])
    (h2 : (count_codons s.handle).2 = none)
    (h3 : ∃ g ∈ SynonymousCodons,
      groupTotal (count_codons s.handle).1 g.2 = 0) :
    (generate_rcsu_index s).2 = some PyError.zeroDivisionError ∧
    (generate_nrcsu_index s).2 = some PyError.zeroDivisionError := by
  obtain ⟨g, hg, hz⟩ := h3
  constructor
  · rw [generate_rcsu_of_count_ok s h1 h2]
    rcases rcsuLoop_snd_none_or_zero (count_codons s.handle).1 []
      SynonymousCodons with h | h
    · exact absurd (by rw [hz]; simp)
        ((rcsuLoop_snd_eq_none_iff _ _ _).mp h g hg)
    · exact h
  · rw [generate_nrcsu_of_count_ok s h1' h2]
    rcases nrcsuLoop_snd_none_or_zero (count_codons s.handle).1 []
      SynonymousCodons with h | h
    · exact absurd hz (fun hcon =>
        ((nrcsuLoop_snd_eq_none_iff _ _ _).mp h g hg) hcon)
    · exact h

set_option maxRecDepth 1000000 in
theorem C2_zero_total_group_raises_witness :
    (generate_rcsu_index (mkState [("seq1", "ATGATG".toList)])).2 =
      some PyError.zeroDivisionError ∧
    (generate_nrcsu_index (mkState [("seq1", "ATGATG".toList)])).2 =
      some PyError.zeroDivisionError :=
  C2_zero_total_group_raises (mkState [("seq1", "ATGATG".toList)]) rfl rfl
    (by decide)
    ⟨("CYS", ["TGT", "TGC"]), by decide,
      of_decide_eq_true (by with_unfolding_all rfl)⟩

/-! ## Claim C4 -/

/-- C4 counterexample: on the record `("seq1", "ATGNNN")` counting raises
(the embedding of the exception the source raises is a `TypeError`, not an
`InvalidCodonError` — no such class exists in the repository), and the
codon-count table exposed to callers retains the partial count ATG ↦ 1
accumulated before the abort, where the claim requires no partial state. -/
theorem C4_no_custom_error_counterexample :
    (count_codons [("seq1", "ATGNNN".toList)]).2 =
      some (PyError.typeError "illegal codon NNN in gene: seq1") ∧
    (count_codons [("seq1", "ATGNNN".toList)]).1 "ATG" = 1 := by decide

/-- C4 amended: a record containing an invalid 3-character window makes
counting fail with a `TypeError` (Python's `TypeError`, there is no
`InvalidCodonError` in the code) whose message names the offending window
and the record identifier; the counts accumulated before the abort remain
in the exposed table rather than being discarded. -/
theorem C4_invalid_codon_type_error (rid : String) (sq : List Char)
    (h : ∃ w ∈ chunks3 (pyNormalize sq), String.mk w ∉ CodonsList) :
    ∃ w ∈ chunks3 (pyNormalize sq), String.mk w ∉ CodonsList ∧
      (count_codons [(rid, sq)]).2 = some (PyError.typeError
        ("illegal codon " ++ String.mk w ++ " in gene: " ++ rid)) := by
  obtain ⟨w, hw, hnv, he⟩ := countChunks_invalid rid (fun _ => 0) _ h
  refine ⟨w, hw, hnv, ?_⟩
  unfold count_codons
  rw [countRecords_cons]
  rcases hcc : countChunks rid (fun _ => 0) (chunks3 (pyNormalize sq))
    with ⟨c2, e⟩
  rw [hcc] at he
  simp only at he
  rw [he]

theorem C4_invalid_codon_type_error_witness :
    ∃ w ∈ chunks3 (pyNormalize "ATGNNN".toList), String.mk w ∉ CodonsList ∧
      (count_codons [("seq1", "ATGNNN".toList)]).2 =
        some (PyError.typeError
          ("illegal codon " ++ String.mk w ++ " in gene: " ++ "seq1")) :=
  C4_invalid_codon_type_error "seq1" "ATGNNN".toList (by decide)

/-! ## Claim C5 -/

/-- Appending a 1- or 2-character fragment to a sequence of full codons
adds one final short window to the scan. -/
theorem chunks3_append_frag (frag : List Char)
    (hf : frag.length = 1 ∨ frag.length = 2) :
    ∀ b : List Char, b.length % 3 = 0 →
      chunks3 (b ++ frag) = chunks3 b ++ [frag] := by
  intro b
  induction b using chunks3.induct with
  | case1 =>
    intro _
    rcases frag with _ | ⟨x, _ | ⟨y, _ | ⟨z, t⟩⟩⟩ <;>
      simp_all [chunks3]
  | case2 a =>
    intro hb
    simp at hb
  | case3 a b =>
    intro hb
    simp at hb
  | case4 a b c rest ih =>
    intro hb
    have hr : rest.length % 3 = 0 := by
      simp only [List.length_cons] at hb
      omega
    simp only [List.cons_append, chunks3]
    rw [show rest.append frag = rest ++ frag from rfl, ih hr]

/-- C5 counterexample: the record `("seq1", "ATGT")` has a trailing
fragment `"T"`; the claim says it is silently dropped with no error, but
the scan raises `TypeError("illegal codon T in gene: seq1")`. -/
theorem C5_trailing_fragment_counterexample :
    (count_codons [("seq1", "ATGT".toList)]).2 =
      some (PyError.typeError "illegal codon T in gene: seq1") ∧
    (count_codons [("seq1", "ATGT".toList)]).1 "ATG" = 1 := by decide

/-- C5 amended: a record whose length is not a multiple of 3 is not
silently truncated: the full codons before the trailing fragment are
counted, and then the fragment itself (length 1 or 2, never a valid
codon) raises a `TypeError` naming the fragment and the record. -/
theorem C5_trailing_fragment_raises (rid : String) (b frag : List Char)
    (hb : b.length % 3 = 0) (hf : frag.length = 1 ∨ frag.length = 2)
    (hvalid : ∀ w ∈ chunks3 b, String.mk w ∈ CodonsList)
    (hlow : pythonIslower (b ++ frag) = false) :
    (count_codons [(rid, b ++ frag)]).2 =
      some (PyError.typeError
        ("illegal codon " ++ String.mk frag ++ " in gene: " ++ rid)) ∧
    (count_codons [(rid, b ++ frag)]).1 =
      (countChunks rid (fun _ => 0) (chunks3 b)).1 := by
  have hnorm : pyNormalize (b ++ frag) = b ++ frag := by
    simp [pyNormalize, hlow]
  have hch : chunks3 (b ++ frag) = chunks3 b ++ [frag] :=
    chunks3_append_frag frag hf b hb
  have hpref : (countChunks rid (fun _ => 0) (chunks3 b)).2 = none :=
    countChunks_valid_none _ _ _ hvalid
  have happ := countChunks_append rid (fun _ => 0) (chunks3 b) [frag] hpref
  have hfragnv : String.mk frag ∉ CodonsList := by
    intro hmem
    have h3 := codons_length_three _ hmem
    have : frag.length = 3 := h3
    omega
  have hfragstep :
      countChunks rid (countChunks rid (fun _ => 0) (chunks3 b)).1 [frag] =
        ((countChunks rid (fun _ => 0) (chunks3 b)).1,
          some (PyError.typeError
            ("illegal codon " ++ String.mk frag ++ " in gene: " ++ rid))) := by
    simp [countChunks, hfragnv]
  unfold count_codons
  rw [countRecords_cons, hnorm, hch, happ, hfragstep]
  exact ⟨rfl, rfl⟩

theorem C5_trailing_fragment_raises_witness :
    (count_codons [("seq1", "ATG".toList ++ ['T'])]).2 =
      some (PyError.typeError
        ("illegal codon " ++ String.mk ['T'] ++ " in gene: " ++ "seq1")) ∧
    (count_codons [("seq1", "ATG".toList ++ ['T'])]).1 =
      (countChunks "seq1" (fun _ => 0) (chunks3 "ATG".toList)).1 :=
  C5_trailing_fragment_raises "seq1" "ATG".toList ['T'] (by decide)
    (Or.inl rfl) (by decide) (by decide)

/-! ## Claim C6 -/

set_option maxRecDepth 1000000 in
/-- C6 counterexample: after a successful first build, a second build of
the same kind fails — but with `ValueError` (there is no
`DuplicateIndexError` class anywhere in the repository; the embedding
names the exception classes the source raises). -/
theorem C6_duplicate_build_counterexample :
    (generate_rcsu_index
        (generate_rcsu_index (mkState allCodonsRecord)).1).2 =
      some (PyError.valueError "an RSCU index has already been set") ∧
    (generate_nrcsu_index
        (generate_nrcsu_index (mkState allCodonsRecord)).1).2 =
      some (PyError.valueError "an NRSCU index has already been set") :=
  of_decide_eq_true (by with_unfolding_all rfl)

/-- C6 amended: after a successful first build, calling the same builder
again fails with `ValueError` (message `an RSCU index has already been
set` / `an NRSCU index has already been set`), and returns the instance
state completely unchanged — in particular the first build's index
mapping is left untouched. -/
theorem C6_duplicate_build_value_error (s t : CAIState)
    (hs : (generate_rcsu_index s).2 = none)
    (ht : (generate_nrcsu_index t).2 = none) :
    generate_rcsu_index (generate_rcsu_index s).1 =
      ((generate_rcsu_index s).1,
        some (PyError.valueError "an RSCU index has already been set")) ∧
    generate_nrcsu_index (generate_nrcsu_index t).1 =
      ((generate_nrcsu_index t).1,
        some (PyError.valueError "an NRSCU index has already been set")) :=
  ⟨generate_rcsu_guard _ (generate_rcsu_ne_nil s hs),
   generate_nrcsu_guard _ (generate_nrcsu_ne_nil t ht)⟩

set_option maxRecDepth 1000000 in
theorem C6_duplicate_build_value_error_witness :
    generate_rcsu_index
        (generate_rcsu_index (mkState allCodonsRecord)).1 =
      ((generate_rcsu_index (mkState allCodonsRecord)).1,
        some (PyError.valueError "an RSCU index has already been set")) ∧
    generate_nrcsu_index
        (generate_nrcsu_index (mkState allCodonsRecord)).1 =
      ((generate_nrcsu_index (mkState allCodonsRecord)).1,
        some (PyError.valueError "an NRSCU index has already been set")) :=
  C6_duplicate_build_value_error (mkState allCodonsRecord)
    (mkState allCodonsRecord)
    (of_decide_eq_true (by with_unfolding_all rfl))
    (of_decide_eq_true (by with_unfolding_all rfl))

/-! ## Claim C7 -/

/-- Scanning `N` back-to-back copies of one 3-character codon yields `N`
windows, each that codon. -/
theorem chunks3_flatten_replicate (w : List Char) (hw : w.length = 3) :
    ∀ N : Nat, chunks3 (List.replicate N w).flatten = List.replicate N w := by
  rcases w with _ | ⟨a, _ | ⟨b, _ | ⟨c, _ | t⟩⟩⟩ <;> simp_all
  intro N
  induction N with
  | zero => rfl
  | succ n ih =>
    simp only [List.replicate_succ, List.flatten_cons, List.cons_append,
      chunks3]
    simp [ih]

/-- Counting a scan of `N` copies of a valid codon adds `N` to that codon
and nothing to any other key, and raises nothing. -/
theorem countChunks_replicate (rid : String) (w : List Char)
    (hmem : String.mk w ∈ CodonsList) :
    ∀ (N : Nat) (counts : String → Nat),
      (countChunks rid counts (List.replicate N w)).2 = none ∧
      ∀ k, (countChunks rid counts (List.replicate N w)).1 k =
        if k = String.mk w then counts k + N else counts k := by
  intro N
  induction N with
  | zero =>
    intro counts
    refine ⟨rfl, fun k => ?_⟩
    by_cases hk : k = String.mk w <;>
      simp [List.replicate_zero, countChunks, hk]
  | succ n ih =>
    intro counts
    simp only [List.replicate_succ, countChunks]
    rw [if_pos hmem]
    obtain ⟨ihe, ihv⟩ := ih (updateCount counts (String.mk w))
    refine ⟨ihe, fun k => ?_⟩
    rw [ihv k]
    by_cases hk : k = String.mk w
    · subst hk
      simp [updateCount]
      omega
    · simp [updateCount, hk]

/-- C7: counting a single record made of one valid codon repeated `N`
times yields count `N` for that codon, 0 for every other key, and no
error; and the record `("seq1", "ATGATGTTTTTC")` yields ATG=2, TTT=1,
TTC=1 and 0 for the remaining 61 codons. -/
theorem C7_repeated_codon_counts (codon : String) (hc : codon ∈ CodonsList)
    (N : Nat) (rid : String) :
    ((count_codons [(rid, (List.replicate N codon.toList).flatten)]).2 =
        none ∧
      (count_codons
        [(rid, (List.replicate N codon.toList).flatten)]).1 codon = N ∧
      ∀ k, k ≠ codon →
        (count_codons
          [(rid, (List.replicate N codon.toList).flatten)]).1 k = 0) ∧
    ((count_codons [("seq1", "ATGATGTTTTTC".toList)]).2 = none ∧
      (count_codons [("seq1", "ATGATGTTTTTC".toList)]).1 "ATG" = 2 ∧
      (count_codons [("seq1", "ATGATGTTTTTC".toList)]).1 "TTT" = 1 ∧
      (count_codons [("seq1", "ATGATGTTTTTC".toList)]).1 "TTC" = 1 ∧
      ∀ k ∈ CodonsList, k ≠ "ATG" → k ≠ "TTT" → k ≠ "TTC" →
        (count_codons [("seq1", "ATGATGTTTTTC".toList)]).1 k = 0) := by
  constructor
  · have hw3 : codon.toList.length = 3 := codons_length_three codon hc
    have hch : chunks3 (List.replicate N codon.toList).flatten =
        List.replicate N codon.toList := chunks3_flatten_replicate _ hw3 N
    have hlowfalse :
        pythonIslower (List.replicate N codon.toList).flatten = false := by
      rcases N with _ | m
      · rfl
      · rcases hcl : codon.toList with _ | ⟨a, rest⟩
        · rw [hcl] at hw3; cases hw3
        · have hupcodon := codons_upper codon hc
          have ha : a.isUpper = true := by
            rw [hcl] at hupcodon
            simp only [List.all_cons, Bool.and_eq_true] at hupcodon
            exact hupcodon.1
          have hall : ((List.replicate (m + 1) codon.toList).flatten).all
              (fun c => !c.isUpper) = false := by
            simp only [List.replicate_succ, List.flatten_cons, hcl,
              List.cons_append, List.all_cons, ha]
            simp
          rw [hcl] at hall
          unfold pythonIslower
          rw [hall, Bool.and_false]
    have hnorm : pyNormalize (List.replicate N codon.toList).flatten =
        (List.replicate N codon.toList).flatten := by
      unfold pyNormalize
      rw [hlowfalse]
      simp
    have hmemw : String.mk codon.toList ∈ CodonsList := hc
    obtain ⟨he, hv⟩ :=
      countChunks_replicate rid codon.toList hmemw N (fun _ => 0)
    have hpair : countChunks rid (fun _ => 0)
          (List.replicate N codon.toList) =
        ((countChunks rid (fun _ => 0)
          (List.replicate N codon.toList)).1, none) := by
      rw [← he]
    have hkey :
        count_codons [(rid, (List.replicate N codon.toList).flatten)] =
          ((countChunks rid (fun _ => 0)
            (List.replicate N codon.toList)).1, none) := by
      unfold count_codons
      rw [countRecords_cons, hnorm, hch, hpair]
      rfl
    refine ⟨by rw [hkey], ?_, ?_⟩
    · rw [hkey]
      rw [hv codon,
        if_pos (show codon = String.mk codon.toList from rfl)]
      omega
    · intro k hkne
      rw [hkey]
      rw [hv k, if_neg (fun hh : k = String.mk codon.toList => hkne hh)]
  · decide

/-! ## Claim C8 -/

/-- On a fresh instance the builder recomputes `codon_count` from the
record source, regardless of what the accumulator held before. -/
theorem generate_rcsu_codon_count (s : CAIState) (h1 : s.rcsu_index = []) :
    (generate_rcsu_index s).1.codon_count = (count_codons s.handle).1 := by
  rcases h2 : (count_codons s.handle).2 with _ | e
  · rw [generate_rcsu_of_count_ok s h1 h2]
  · rw [generate_rcsu_of_count_err s h1 e h2]

/-- C8 counterexample: the mixed-case sequence `"ATGatg"` is not
upper-cased (`str.islower()` is false because of the leading `"ATG"`), so
its window `"atg"` raises `TypeError` — it is not counted like its
upper-case form `"ATGATG"`, which counts ATG twice without error. -/
theorem C8_mixed_case_counterexample :
    (count_codons [("seq1", "ATGatg".toList)]).2 =
      some (PyError.typeError "illegal codon atg in gene: seq1") ∧
    (count_codons [("seq1", "ATGatg".toList)]).1 "ATG" = 1 ∧
    (count_codons [("seq1", "ATGATG".toList)]).2 = none ∧
    (count_codons [("seq1", "ATGATG".toList)]).1 "ATG" = 2 := by decide

/-- C8 amended: the counting step does reset the accumulator (two fresh
instances over the same records produce identical counts no matter what
their accumulators previously held), and a sequence that is *entirely*
lower-case (here: over the alphabet a,c,g,t) is counted exactly like its
upper-cased form.  Mixed-case sequences, however, are scanned as stored
(see the counterexample). -/
theorem C8_reset_and_lowercase_only (s t : CAIState)
    (hs : s.rcsu_index = []) (ht : t.rcsu_index = [])
    (hh : s.handle = t.handle) (rid : String) (sq : List Char)
    (counts : String → Nat) (rest : List (String × List Char))
    (hne : sq ≠ [])
    (halpha : ∀ ch ∈ sq, ch ∈ (['a', 'c', 'g', 't'] : List Char)) :
    (generate_rcsu_index s).1.codon_count =
      (generate_rcsu_index t).1.codon_count ∧
    countRecords counts ((rid, sq) :: rest) =
      countRecords counts ((rid, sq.map Char.toUpper) :: rest) := by
  constructor
  · rw [generate_rcsu_codon_count s hs, generate_rcsu_codon_count t ht, hh]
  · rcases sq with _ | ⟨c0, cs⟩
    · cases hne rfl
    have hc0 := halpha c0 (List.mem_cons_self _ _)
    have hlow : pythonIslower (c0 :: cs) = true := by
      unfold pythonIslower
      rw [Bool.and_eq_true]
      constructor
      · rw [List.any_eq_true]
        refine ⟨c0, List.mem_cons_self _ _, ?_⟩
        fin_cases hc0 <;> decide
      · rw [List.all_eq_true]
        intro x hx
        have hxa := halpha x hx
        fin_cases hxa <;> decide
    have hup : pythonIslower ((c0 :: cs).map Char.toUpper) = false := by
      have hall : ((c0 :: cs).map Char.toUpper).all
          (fun c => !c.isUpper) = false := by
        simp only [List.map_cons, List.all_cons]
        have : (Char.toUpper c0).isUpper = true := by
          fin_cases hc0 <;> decide
        rw [this]
        simp
      unfold pythonIslower
      rw [hall, Bool.and_false]
    have hn1 : pyNormalize (c0 :: cs) = (c0 :: cs).map Char.toUpper := by
      unfold pyNormalize
      rw [hlow]
      simp
    have hn2 : pyNormalize ((c0 :: cs).map Char.toUpper) =
        (c0 :: cs).map Char.toUpper := by
      unfold pyNormalize
      rw [hup]
      simp
    rw [countRecords_cons, countRecords_cons, hn1, hn2]

set_option maxRecDepth 1000000 in
theorem C8_reset_and_lowercase_only_witness :
    (generate_rcsu_index (mkState [("seq1", "atgatg".toList)])).1.codon_count
      = (generate_rcsu_index
          (mkState [("seq1", "atgatg".toList)])).1.codon_count ∧
    countRecords (fun _ => 0) [("seq1", "atgatg".toList)] =
      countRecords (fun _ => 0)
        [("seq1", "atgatg".toList.map Char.toUpper)] :=
  C8_reset_and_lowercase_only (mkState [("seq1", "atgatg".toList)])
    (mkState [("seq1", "atgatg".toList)]) rfl rfl rfl "seq1"
    "atgatg".toList (fun _ => 0) [] (by decide) (by decide)

/-! ## Claim C9 -/

set_option maxRecDepth 1000000 in
/-- C9 counterexample: the claimed identity
`rcsu_index[c] = len(G) * nrcsu_index[c]` fails for the doubles the
program actually stores.  On a record using every codon once plus three
extra ATA and four extra ATT, both builds succeed and the ILE group
(size 3) has counts ATC=1, ATA=4, ATT=5, total 10.  In binary64 the
stored values are rcsu(ATC) = fl(1/fl(10/3)) = 5404319552844595 / 2^54
(the double 0.3) and nrcsu(ATC) = fl(1/10) = 3602879701896397 / 2^55
(the double 0.1), and 5404319552844595/2^54 ≠ 3 · 3602879701896397/2^55
(the doubles 0.3 and 0.30000000000000004 differ by one ulp). -/
theorem C9_float_rounding_counterexample :
    ((generate_rcsu_indexF (mkState ileSkewRecord)).2 = none ∧
      (generate_nrcsu_indexF (mkState ileSkewRecord)).2 = none ∧
      (dictGet (generate_rcsu_indexF
        (mkState ileSkewRecord)).1.rcsu_index "ATC").isSome = true ∧
      ((dictGet (generate_rcsu_indexF
        (mkState ileSkewRecord)).1.rcsu_index "ATC").getD 0).num =
        5404319552844595 ∧
      ((dictGet (generate_rcsu_indexF
        (mkState ileSkewRecord)).1.rcsu_index "ATC").getD 0).den =
        2 ^ 54 ∧
      (dictGet (generate_nrcsu_indexF
        (mkState ileSkewRecord)).1.nrcsu_index "ATC").isSome = true ∧
      ((dictGet (generate_nrcsu_indexF
        (mkState ileSkewRecord)).1.nrcsu_index "ATC").getD 0).num =
        3602879701896397 ∧
      ((dictGet (generate_nrcsu_indexF
        (mkState ileSkewRecord)).1.nrcsu_index "ATC").getD 0).den =
        2 ^ 55) ∧
    ¬ ((5404319552844595 : ℚ) / 2 ^ 54 =
        ((["ATC", "ATA", "ATT"] : List String).length : ℚ) *
          (3602879701896397 / 2 ^ 55)) :=
  ⟨of_decide_eq_true (by with_unfolding_all rfl), by
    simp only [List.length_cons, List.length_nil]
    norm_num⟩

/-- C9 amended: after both builds succeed over the same record source,
the stored weights are `count/(total/n)` (RCSU) and `count/total`
(NRCSU); as exact real values these satisfy
`rcsu = len(G) * nrcsu` for every group — the identity of the stored
binary64 doubles themselves holds only up to rounding (see the
counterexample: it fails for the ILE group under counts 1, 4, 5). -/
theorem C9_rcsu_eq_group_size_mul_nrcsu (s t : CAIState)
    (hh : s.handle = t.handle)
    (hs : (generate_rcsu_index s).2 = none)
    (ht : (generate_nrcsu_index t).2 = none)
    (g : String × List String) (hg : g ∈ SynonymousCodons)
    (c : String) (hc : c ∈ g.2) :
    ∃ v w : ℚ,
      dictGet (generate_rcsu_index s).1.rcsu_index c = some v ∧
      dictGet (generate_nrcsu_index t).1.nrcsu_index c = some w ∧
      v = (g.2.length : ℚ) * w := by
  refine ⟨_, _, generate_rcsu_lookup s hs g hg c hc,
    generate_nrcsu_lookup t ht g hg c hc, ?_⟩
  rw [hh, div_div_eq_mul_div]
  ring

set_option maxRecDepth 1000000 in
theorem C9_rcsu_eq_group_size_mul_nrcsu_witness :
    ∃ v w : ℚ,
      dictGet (generate_rcsu_index
        (mkState allCodonsRecord)).1.rcsu_index "TTT" = some v ∧
      dictGet (generate_nrcsu_index
        (mkState allCodonsRecord)).1.nrcsu_index "TTT" = some w ∧
      v = ((["TTT", "TTC"] : List String).length : ℚ) * w :=
  C9_rcsu_eq_group_size_mul_nrcsu (mkState allCodonsRecord)
    (mkState allCodonsRecord) rfl
    (of_decide_eq_true (by with_unfolding_all rfl))
    (of_decide_eq_true (by with_unfolding_all rfl))
    ("PHE", ["TTT", "TTC"]) (by decide) "TTT" (by decide)

/-! ## Claim C10 -/

/-- C10: `generate_rcsu_index` never writes `nrcsu_index` and
`generate_nrcsu_index` never writes `rcsu_index` (so each leaves the other
kind's mapping, and thereby its emptiness guard, unchanged), and on a
fresh instance whose first build succeeds, the build of the other kind
afterwards succeeds as well — in either order. -/
theorem C10_index_builds_independent (s : CAIState)
    (h1 : s.rcsu_index = []) (h2 : s.nrcsu_index = []) :
    (∀ u : CAIState,
      (generate_rcsu_index u).1.nrcsu_index = u.nrcsu_index) ∧
    (∀ u : CAIState,
      (generate_nrcsu_index u).1.rcsu_index = u.rcsu_index) ∧
    ((generate_rcsu_index s).2 = none →
      (generate_nrcsu_index (generate_rcsu_index s).1).2 = none) ∧
    ((generate_nrcsu_index s).2 = none →
      (generate_rcsu_index (generate_nrcsu_index s).1).2 = none) := by
  refine ⟨fun u => (generate_rcsu_frame u).2,
    fun u => (generate_nrcsu_frame u).2, ?_, ?_⟩
  · intro hok
    obtain ⟨hr1, hr2, hr3⟩ := (generate_rcsu_snd_none_iff s).mp hok
    apply (generate_nrcsu_snd_none_iff _).mpr
    refine ⟨?_, ?_, ?_⟩
    · rw [(generate_rcsu_frame s).2, h2]
    · rw [(generate_rcsu_frame s).1]
      exact hr2
    · rw [(generate_rcsu_frame s).1]
      intro g hg hT
      exact hr3 g hg (by rw [hT, zero_div])
  · intro hok
    obtain ⟨hn1, hn2, hn3⟩ := (generate_nrcsu_snd_none_iff s).mp hok
    apply (generate_rcsu_snd_none_iff _).mpr
    refine ⟨?_, ?_, ?_⟩
    · rw [(generate_nrcsu_frame s).2, h1]
    · rw [(generate_nrcsu_frame s).1]
      exact hn2
    · rw [(generate_nrcsu_frame s).1]
      intro g hg
      have hlen : ((g.2.length : ℚ)) ≠ 0 := by
        have := synonymous_ne_nil g hg
        exact_mod_cast this
      exact div_ne_zero (hn3 g hg) hlen

set_option maxRecDepth 1000000 in
theorem C10_index_builds_independent_witness :
    (generate_rcsu_index
        (mkState allCodonsRecord)).1.nrcsu_index =
      (mkState allCodonsRecord).nrcsu_index ∧
    (generate_nrcsu_index
      (generate_rcsu_index (mkState allCodonsRecord)).1).2 = none ∧
    (generate_rcsu_index
      (generate_nrcsu_index (mkState allCodonsRecord)).1).2 = none :=
  ⟨(C10_index_builds_independent (mkState allCodonsRecord) rfl rfl).1
      (mkState allCodonsRecord),
   (C10_index_builds_independent (mkState allCodonsRecord) rfl rfl).2.2.1
      (of_decide_eq_true (by with_unfolding_all rfl)),
   (C10_index_builds_independent (mkState allCodonsRecord) rfl rfl).2.2.2
      (of_decide_eq_true (by with_unfolding_all rfl))⟩

theorem C7_repeated_codon_counts_witness :
    (count_codons
      [("r", (List.replicate 5 ("TTT" : String).toList).flatten)]).2 =
        none ∧
    (count_codons
      [("r", (List.replicate 5 ("TTT" : String).toList).flatten)]).1
        "TTT" = 5 ∧
    (count_codons
      [("r", (List.replicate 5 ("TTT" : String).toList).flatten)]).1
        "AAA" = 0 :=
  ⟨(C7_repeated_codon_counts "TTT" (by decide) 5 "r").1.1,
   (C7_repeated_codon_counts "TTT" (by decide) 5 "r").1.2.1,
   (C7_repeated_codon_counts "TTT" (by decide) 5 "r").1.2.2 "AAA"
     (by decide)⟩
